import Mathlib

/-!
Verification of the planar normalizing flow of `tfsnippet`
(`tfsnippet/layers/flows/planar_nf.py`).

Tensors with a fixed trailing (event) dimension are modelled as a list of
rows in row-major order together with the list of leading batch dimensions
and the trailing dimension; numeric entries are real numbers.  TensorFlow
graph evaluation is modelled by direct evaluation: a forward call computes
from the current parameter values, exactly as `session.run` re-evaluates
the graph expressions built in `_build` from the current variable values.
-/

/-- The error kinds surfaced by the flow layer:
`ShapeError` from input-spec validation, `InvalidArgumentError` from
argument validation, `UnsupportedOperationError` from requesting an
unsupported inverse, and `RuntimeError` for the planar flow's
`_inverse_transform` stub. -/
inductive TfError where
  | ShapeError : TfError
  | InvalidArgumentError : TfError
  | UnsupportedOperationError : TfError
  | RuntimeError : TfError
deriving DecidableEq, Repr

/-- A batched tensor with event rank 1: `bshape` is the list of leading
batch dimensions, `units` the trailing dimension, and `rows` the batch of
vectors in row-major order. -/
structure Tensor where
  bshape : List ℕ
  units : ℕ
  rows : List (List ℝ)


/-- A batched scalar tensor (event rank 0), as produced for the
log-determinant after the trailing singleton dimension is squeezed. -/
structure STensor where
  bshape : List ℕ
  vals : List ℝ


/-- Dot product of two vectors represented as lists
(`tf.matmul(a, b, transpose_b=True)` on `[1, n]`-shaped operands). -/
def dotL : List ℝ → List ℝ → ℝ
  | a :: as_, b :: bs => a * b + dotL as_ bs
  | _, _ => 0

/-- `tf.nn.softplus`: `softplus(a) = log(1 + exp(a))`. -/
noncomputable def softplus (a : ℝ) : ℝ := Real.log (1 + Real.exp a)

/-- The invertibility-corrected parameter of `PlanarNormalizingFlow._build`:
`u_hat = u + (-1 + softplus(w·uᵀ) - w·uᵀ) * w / reduce_sum(square(w))`,
elementwise over the `[1, n_units]` vectors `w`, `u`. -/
noncomputable def u_hat (w u : List ℝ) : List ℝ :=
  List.zipWith
    (fun ui wi => ui + (-1 + softplus (dotL w u) - dotL w u) * wi / dotL w w)
    u w

/-- A built `PlanarNormalizingFlow`: `n_units` fixed by `_build` from the
first input's trailing dimension, and the current values of the variables
`w` (shape `[1, n_units]`), `b` (shape `[1]`), `u` (shape `[1, n_units]`). -/
structure PlanarFlowBuilt where
  n_units : ℕ
  w : List ℝ
  b : ℝ
  u : List ℝ

/-- `PlanarNormalizingFlow._build` applied to the first input `x`: validates
the input against `InputSpec(shape=('...', '?', '*'))` (at least one batch
dimension), fixes `n_units` to the trailing dimension of `x`, and allocates
the variables `w`, `b`, `u` (their initial values, produced by the
initializers, are supplied externally). -/
def planar_build (x : Tensor) (w u : List ℝ) (b : ℝ) :
    Except TfError PlanarFlowBuilt :=
  if 1 ≤ x.bshape.length then .ok ⟨x.units, w, b, u⟩
  else .error .ShapeError

/-- The pair returned by `_transform`: the transformed sample (if
`compute_y`) and the log-determinant (if `compute_log_det`). -/
structure ForwardResult where
  y : Option Tensor
  log_det : Option STensor

/-- Modelled from the spec: `flatten(x, 2)` of `tfsnippet.utils` (not under
`src/`) collapses all leading batch dimensions into one combined dimension,
preserving the row-major data, and remembers the original shape split. -/
def flatten2 (x : Tensor) : Tensor × List ℕ :=
  (⟨[x.bshape.prod], x.units, x.rows⟩, x.bshape)

/-- Modelled from the spec: `unflatten(y, s1, s2)` of `tfsnippet.utils`
(not under `src/`) restores the original leading batch dimensions,
preserving the row-major data. -/
def unflatten (y : Tensor) (s : List ℕ) : Tensor := ⟨s, y.units, y.rows⟩

/-- Modelled from the spec: `unflatten` applied to the squeezed
log-determinant restores the original batch shape. -/
def unflattenS (y : STensor) (s : List ℕ) : STensor := ⟨s, y.vals⟩

/-- Modelled from the spec (validation part):
`InputSpec(shape=('...', '?', n_units)).validate(x)` of `tfsnippet.utils`
(not under `src/`) fails with `ShapeError` unless `x` has at least one
batch dimension and its trailing dimension equals exactly `n_units`. -/
def input_spec_ok (n_units : ℕ) (x : Tensor) : Prop :=
  x.units = n_units ∧ 1 ≤ x.bshape.length

instance (n_units : ℕ) (x : Tensor) : Decidable (input_spec_ok n_units x) :=
  inferInstanceAs (Decidable (And _ _))

/-- `PlanarNormalizingFlow._transform`: validates `x` against the input
spec fixed by `_build`, flattens the batch dimensions, computes
`wxb = x·wᵀ + b` and `tanh_wxb = tanh(wxb)`, then if `compute_y` the sample
`y = x + u_hat * tanh_wxb` (unflattened), and if `compute_log_det` the
log-determinant `log|1 + (1 - tanh_wxb²)·w·u_hatᵀ|` (squeezed and
unflattened).  `u_hat` is the graph expression built in `_build`, which
evaluation recomputes from the current values of `w` and `u`. -/
noncomputable def planar_transform (f : PlanarFlowBuilt) (x : Tensor)
    (compute_y compute_log_det : Bool) : Except TfError ForwardResult :=
  if input_spec_ok f.n_units x then
    let uh := u_hat f.w f.u
    let xf := (flatten2 x).1
    let s1 := (flatten2 x).2
    let wxb := xf.rows.map (fun r => dotL r f.w + f.b)
    let tanh_wxb := wxb.map Real.tanh
    let y : Option Tensor :=
      if compute_y then
        some (unflatten
          ⟨xf.bshape, xf.units,
            (xf.rows.zip tanh_wxb).map
              (fun p => List.zipWith (fun xi uhi => xi + uhi * p.2) p.1 uh)⟩
          s1)
      else none
    let log_det : Option STensor :=
      if compute_log_det then
        some (unflattenS
          ⟨xf.bshape,
            tanh_wxb.map (fun t =>
              Real.log |1 + dotL (f.w.map (fun wi => (1 - t ^ 2) * wi)) uh|)⟩
          s1)
      else none
    .ok ⟨y, log_det⟩
  else .error .ShapeError

/-- `PlanarNormalizingFlow.explicitly_invertible`: the planar flow reports
that it supports no analytic inversion. -/
def explicitly_invertible : Bool := false

/-- Modelled from the spec: `BaseFlow.transform` (`flows/base.py`, not
under `src/`) requires at least one of `compute_y`, `compute_log_det` to
be true, raising `InvalidArgumentError` otherwise, then delegates to
`_transform`. -/
noncomputable def flow_forward (f : PlanarFlowBuilt) (x : Tensor)
    (compute_y compute_log_det : Bool) : Except TfError ForwardResult :=
  if compute_y = false ∧ compute_log_det = false then
    .error .InvalidArgumentError
  else planar_transform f x compute_y compute_log_det

/-- Modelled from the spec: `BaseFlow.inverse_transform` (`flows/base.py`,
not under `src/`) raises `UnsupportedOperationError` when the flow is not
explicitly invertible; otherwise it would delegate to the planar flow's
`_inverse_transform`, which raises `RuntimeError` unconditionally. -/
def flow_inverse (f : PlanarFlowBuilt) (y : Tensor)
    (compute_x compute_log_det : Bool) : Except TfError ForwardResult :=
  if explicitly_invertible then .error .RuntimeError
  else .error .UnsupportedOperationError

/-- An external optimizer step: overwrites the current values of the
variables `w`, `b`, `u` of a built flow; `n_units` and the input spec are
unchanged.  There is no stored `u_hat` to update: `u_hat` is a graph
expression re-evaluated from `w` and `u` at each call. -/
def updateParams (f : PlanarFlowBuilt) (w' : List ℝ) (b' : ℝ)
    (u' : List ℝ) : PlanarFlowBuilt :=
  ⟨f.n_units, w', b', u'⟩

/-- Reshape of the batch dimensions of a tensor (row-major data kept). -/
def reshapeT (x : Tensor) (s : List ℕ) : Tensor := ⟨s, x.units, x.rows⟩

/-- Reshape of the batch dimensions of a scalar tensor. -/
def reshapeS (x : STensor) (s : List ℕ) : STensor := ⟨s, x.vals⟩

/-- The per-layer keyword arguments that `planar_normalizing_flows` passes
to every constructed `PlanarNormalizingFlow`; initializers and
regularizers are kept abstract. -/
structure FlowKwargs (Init Reg : Type) where
  w_init : Init
  w_reg : Reg
  b_init : Init
  b_reg : Reg
  u_init : Init
  u_reg : Reg
  trainable : Bool

/-- An unbuilt flow object as constructed by `planar_normalizing_flows`:
either a single `PlanarNormalizingFlow` carrying its keyword arguments and
its variable-scope identity (`none` for the caller's own scope, `some i`
for the child scope named `_i`), or a `SequentialFlow` over a list of
flows. -/
inductive FlowC (Init Reg : Type) where
  | planar (kwargs : FlowKwargs Init Reg) (scopeId : Option ℕ) : FlowC Init Reg
  | sequential (flows : List (FlowC Init Reg)) : FlowC Init Reg

/-- Modelled from the spec: `validate_positive_int_arg` of
`tfsnippet.utils` (not under `src/`) checks that the argument is a
positive integer and raises `InvalidArgumentError` otherwise. -/
def validate_positive_int_arg (n : ℤ) : Except TfError ℕ :=
  if 0 < n then .ok n.toNat else .error .InvalidArgumentError

/-- `planar_normalizing_flows`: validates `n_layers`, then returns a single
`PlanarNormalizingFlow` when `n_layers == 1`, and otherwise a
`SequentialFlow` over `n_layers` flows, each constructed with the same
keyword arguments and the distinct scope name `_i`. -/
def planar_normalizing_flows {Init Reg : Type} (n_layers : ℤ)
    (kwargs : FlowKwargs Init Reg) : Except TfError (FlowC Init Reg) :=
  match validate_positive_int_arg n_layers with
  | .error e => .error e
  | .ok n =>
    if n = 1 then .ok (.planar kwargs none)
    else .ok (.sequential ((List.range n).map
        (fun i => .planar kwargs (some i))))

/-- The scope identity of a flow object (distinct scopes give the layers
distinct parameter storage). -/
def FlowC.scopeId {Init Reg : Type} : FlowC Init Reg → Option ℕ
  | .planar _ s => s
  | .sequential _ => none

/-- The keyword arguments of a single planar flow object. -/
def FlowC.kwargsOf {Init Reg : Type} : FlowC Init Reg →
    Option (FlowKwargs Init Reg)
  | .planar k _ => some k
  | .sequential _ => none

/-- A concrete built flow (`n_units = 2`, `w = [1, 0]`, `b = 0`,
`u = [0, 1]`) used by the witnesses. -/
noncomputable def exFlow : PlanarFlowBuilt := ⟨2, [1, 0], 0, [0, 1]⟩

/-- A second concrete built flow with the same `n_units` but different
parameter values, used by the witnesses. -/
noncomputable def exFlow2 : PlanarFlowBuilt := ⟨2, [5, 5], 1, [3, 3]⟩

/-- A concrete input tensor of batch shape `[1]` and trailing dimension 2
used by the witnesses. -/
noncomputable def exX : Tensor := ⟨[1], 2, [[1, 2]]⟩

/-- A concrete input tensor of batch shape `[1, 1]` used by the witnesses. -/
noncomputable def exX22 : Tensor := ⟨[1, 1], 2, [[1, 2]]⟩

/-- A concrete input tensor whose trailing dimension 3 does not match
`exFlow.n_units = 2`, used by the witnesses. -/
noncomputable def exBad : Tensor := ⟨[1], 3, [[1, 2, 3]]⟩

/-- A concrete keyword-argument record used by the witnesses. -/
def kU : FlowKwargs Unit Unit := ⟨(), (), (), (), (), (), true⟩

theorem dotL_nil_left (z : List ℝ) : dotL [] z = 0 := by cases z <;> rfl

theorem dotL_cons (a b : ℝ) (as_ bs : List ℝ) :
    dotL (a :: as_) (b :: bs) = a * b + dotL as_ bs := rfl

theorem softplus_pos (a : ℝ) : 0 < softplus a := by
  have h : 1 < 1 + Real.exp a := by linarith [Real.exp_pos a]
  exact Real.log_pos h

theorem dotL_self_nonneg (w : List ℝ) : 0 ≤ dotL w w := by
  induction w with
  | nil => simp [dotL_nil_left]
  | cons a as_ ih => rw [dotL_cons]; nlinarith [mul_self_nonneg a]

theorem dotL_self_eq_zero (w : List ℝ) (h : dotL w w = 0) (z : List ℝ) :
    dotL w z = 0 := by
  induction w generalizing z with
  | nil => exact dotL_nil_left z
  | cons a as_ ih =>
    rw [dotL_cons] at h
    have has : dotL as_ as_ = 0 := by
      nlinarith [mul_self_nonneg a, dotL_self_nonneg as_]
    have ha0 : a = 0 := by
      nlinarith [mul_self_nonneg a, dotL_self_nonneg as_]
    cases z with
    | nil => rfl
    | cons b bs => rw [dotL_cons, ih has bs, ha0]; ring

theorem dotL_affine_zipWith (c s : ℝ) (w : List ℝ) :
    ∀ u : List ℝ, w.length = u.length →
      dotL w (List.zipWith (fun ui wi => ui + c * wi / s) u w)
        = dotL w u + c * dotL w w / s := by
  induction w with
  | nil =>
    intro u h
    cases u with
    | nil => simp [dotL_nil_left, dotL]
    | cons b bs => simp at h
  | cons a as_ ih =>
    intro u h
    cases u with
    | nil => simp at h
    | cons b bs =>
      simp only [List.length_cons, Nat.succ.injEq] at h
      simp only [List.zipWith_cons_cons]
      rw [dotL_cons, dotL_cons, dotL_cons, ih bs h]
      ring

theorem dotL_u_hat (w u : List ℝ) (h : w.length = u.length)
    (hs : dotL w w ≠ 0) :
    dotL w (u_hat w u) = softplus (dotL w u) - 1 := by
  unfold u_hat
  rw [dotL_affine_zipWith _ _ w u h, mul_div_assoc, div_self hs, mul_one]
  ring

/-- C3: for all finite parameter vectors `w` and `u` (of the common length
`n_units`), the computed
`u_hat = u + (softplus(w·uᵀ) - 1 - w·uᵀ) · w / ‖w‖₂²` satisfies
`wᵀ·u_hat > -1`, so the Jacobian determinant `1 + (1 - tanh²)·wᵀ·u_hat` of
the planar transformation never vanishes. -/
theorem planar_u_hat_never_vanishing (w u : List ℝ)
    (h : w.length = u.length) : -1 < dotL w (u_hat w u) := by
  by_cases hs : dotL w w = 0
  · rw [dotL_self_eq_zero w hs]; norm_num
  · rw [dotL_u_hat w u h hs]
    have hp := softplus_pos (dotL w u)
    linarith

theorem planar_u_hat_never_vanishing_witness :
    (([1, 0] : List ℝ).length = ([2, 3] : List ℝ).length) ∧
      -1 < dotL [1, 0] (u_hat [1, 0] [2, 3]) :=
  ⟨rfl, planar_u_hat_never_vanishing [1, 0] [2, 3] rfl⟩

theorem zip_map_map {α β γ : Type} (xs : List α) (g : α → β)
    (h : α → β → γ) :
    (xs.zip (xs.map g)).map (fun p => h p.1 p.2)
      = xs.map (fun r => h r (g r)) := by
  induction xs with
  | nil => rfl
  | cons a as_ ih => simp only [List.map_cons, List.zip_cons_cons, ih]

theorem u_hat_length (w u : List ℝ) :
    (u_hat w u).length = min u.length w.length := by
  simp [u_hat]

theorem planar_transform_ok (f : PlanarFlowBuilt) (x : Tensor)
    (cy cld : Bool) (hx : input_spec_ok f.n_units x) :
    planar_transform f x cy cld = .ok
      ⟨if cy then
          some ⟨x.bshape, x.units, x.rows.map (fun r => List.zipWith
            (fun xi uhi => xi + uhi * Real.tanh (dotL r f.w + f.b)) r
            (u_hat f.w f.u))⟩
        else none,
       if cld then
          some ⟨x.bshape, x.rows.map (fun r =>
            Real.log |1 + dotL (f.w.map (fun wi =>
              (1 - Real.tanh (dotL r f.w + f.b) ^ 2) * wi)) (u_hat f.w f.u)|)⟩
        else none⟩ := by
  have hz := zip_map_map x.rows (fun r => Real.tanh (dotL r f.w + f.b))
    (fun r t => List.zipWith (fun xi uhi => xi + uhi * t) r (u_hat f.w f.u))
  simp only [planar_transform, if_pos hx, flatten2, unflatten, unflattenS]
  cases cy <;> cases cld <;>
    simp only [if_true, if_false, Bool.false_eq_true, Except.ok.injEq,
      ForwardResult.mk.injEq, Option.some.injEq, Tensor.mk.injEq,
      STensor.mk.injEq, List.map_map, Function.comp_def, true_and,
      and_true] <;>
    simp_all

/-- Claim C1: for every built `PlanarFlow` with parameters `w`, `b`, `u`
and every valid input `x` whose trailing dimension equals the fixed
`n_units`, a forward call with `compute_y = true` returns
`y = x + u_hat * tanh(wᵀx + b)` (rowwise, with `u_hat` the
invertibility-corrected parameter derived from `w` and `u`), and `y` has
exactly the same shape as `x` (same batch shape, same trailing dimension,
same number of rows, same row lengths). -/
theorem planar_forward_y (f : PlanarFlowBuilt) (x : Tensor) (cld : Bool)
    (hw : f.w.length = f.n_units) (hu : f.u.length = f.n_units)
    (hx : input_spec_ok f.n_units x)
    (hrow : ∀ r ∈ x.rows, r.length = x.units) :
    ∃ res : ForwardResult,
      planar_transform f x true cld = .ok res ∧
      res.y = some ⟨x.bshape, x.units, x.rows.map (fun r => List.zipWith
        (fun xi uhi => xi + uhi * Real.tanh (dotL r f.w + f.b)) r
        (u_hat f.w f.u))⟩ ∧
      ∀ t, res.y = some t → t.bshape = x.bshape ∧ t.units = x.units ∧
        t.rows.length = x.rows.length ∧ ∀ r ∈ t.rows, r.length = x.units := by
  refine ⟨_, planar_transform_ok f x true cld hx, by simp, ?_⟩
  intro t ht
  simp only [if_true, Option.some.injEq] at ht
  subst ht
  refine ⟨rfl, rfl, List.length_map _ _, ?_⟩
  intro r hr
  simp only [List.mem_map] at hr
  obtain ⟨r0, hr0, rfl⟩ := hr
  rw [List.length_zipWith, u_hat_length, hw, hu, hrow r0 hr0, hx.1]
  simp

theorem planar_forward_y_witness :
    ∃ res : ForwardResult,
      planar_transform exFlow exX true true = .ok res ∧
      res.y = some ⟨exX.bshape, exX.units, exX.rows.map (fun r =>
        List.zipWith
          (fun xi uhi => xi + uhi * Real.tanh (dotL r exFlow.w + exFlow.b))
          r (u_hat exFlow.w exFlow.u))⟩ ∧
      ∀ t, res.y = some t → t.bshape = exX.bshape ∧ t.units = exX.units ∧
        t.rows.length = exX.rows.length ∧
        ∀ r ∈ t.rows, r.length = exX.units :=
  planar_forward_y exFlow exX true rfl rfl ⟨rfl, by decide⟩
    (by simp [exX])

/-- Claim C2: for every built `PlanarFlow` and valid input `x`, a forward
call with `compute_log_det = true` returns the log-determinant computed
rowwise as `grad = 1 - tanh²(wᵀx + b)`, `phi = grad * w`,
`u_phi = phi·u_hatᵀ`, `det_jac = 1 + u_phi`, `log_det = log(|det_jac|)`
(the absolute value taken before the logarithm), and the trailing
singleton dimension is squeezed so that `log_det` carries `x`'s
batch-shape prefix only, with one value per row of `x`. -/
theorem planar_forward_log_det (f : PlanarFlowBuilt) (x : Tensor)
    (cy : Bool) (hx : input_spec_ok f.n_units x) :
    ∃ res : ForwardResult,
      planar_transform f x cy true = .ok res ∧
      res.log_det = some ⟨x.bshape, x.rows.map (fun r =>
        Real.log |1 + dotL (f.w.map (fun wi =>
          (1 - Real.tanh (dotL r f.w + f.b) ^ 2) * wi)) (u_hat f.w f.u)|)⟩ ∧
      ∀ s, res.log_det = some s → s.bshape = x.bshape ∧
        s.vals.length = x.rows.length := by
  refine ⟨_, planar_transform_ok f x cy true hx, by simp, ?_⟩
  intro s hs
  simp only [if_true, Option.some.injEq] at hs
  subst hs
  exact ⟨rfl, List.length_map _ _⟩

theorem planar_forward_log_det_witness :
    ∃ res : ForwardResult,
      planar_transform exFlow exX true true = .ok res ∧
      res.log_det = some ⟨exX.bshape, exX.rows.map (fun r =>
        Real.log |1 + dotL (exFlow.w.map (fun wi =>
          (1 - Real.tanh (dotL r exFlow.w + exFlow.b) ^ 2) * wi))
          (u_hat exFlow.w exFlow.u)|)⟩ ∧
      ∀ s, res.log_det = some s → s.bshape = exX.bshape ∧
        s.vals.length = exX.rows.length :=
  planar_forward_log_det exFlow exX true ⟨rfl, by decide⟩

/-- Claim C4: `u_hat` is a pure function of the current values of `w` and
`u`, recomputed from them on every application of the flow and never
cached across parameter updates: after an optimizer update the transform's
result is entirely determined by the new parameter values (the values held
before the update are irrelevant), and the `y` it produces uses
`u_hat` derived from the updated `w` and `u`. -/
theorem planar_u_hat_recomputed (f g : PlanarFlowBuilt) (w' u' : List ℝ)
    (b' : ℝ) (x : Tensor) (cy cld : Bool) (hn : f.n_units = g.n_units) :
    planar_transform (updateParams f w' b' u') x cy cld
      = planar_transform (updateParams g w' b' u') x cy cld ∧
    ∀ res, planar_transform (updateParams f w' b' u') x true cld = .ok res →
      res.y = some ⟨x.bshape, x.units, x.rows.map (fun r => List.zipWith
        (fun xi uhi => xi + uhi * Real.tanh (dotL r w' + b')) r
        (u_hat w' u'))⟩ := by
  constructor
  · unfold updateParams
    rw [hn]
  · intro res hres
    by_cases hx : input_spec_ok (updateParams f w' b' u').n_units x
    · rw [planar_transform_ok _ _ _ _ hx] at hres
      cases hres
      simp [updateParams]
    · unfold planar_transform at hres
      rw [if_neg hx] at hres
      simp at hres

theorem planar_u_hat_recomputed_witness :
    planar_transform (updateParams exFlow2 [1, 0] 0 [0, 1]) exX true true
      = planar_transform (updateParams exFlow [1, 0] 0 [0, 1]) exX true
          true ∧
    ∀ res, planar_transform (updateParams exFlow2 [1, 0] 0 [0, 1]) exX true
        true = .ok res →
      res.y = some ⟨exX.bshape, exX.units, exX.rows.map (fun r =>
        List.zipWith
          (fun xi uhi => xi + uhi * Real.tanh (dotL r [1, 0] + 0)) r
          (u_hat [1, 0] [0, 1]))⟩ :=
  planar_u_hat_recomputed exFlow2 exFlow [1, 0] [0, 1] 0 exX true true rfl

/-- Claim C5: batch-shape invariance — for every built `PlanarFlow`,
forward on an input of batch shape `[B1, B2]` yields exactly the values
of forward on its `[B1 * B2]` reshape, reshaped back, for both `y` and
`log_det`; flattening the leading batch dimensions and restoring them
does not change numeric results. -/
theorem planar_batch_shape_invariance (f : PlanarFlowBuilt) (x : Tensor)
    (b1 b2 : ℕ) (cy cld : Bool) (h : x.bshape = [b1, b2]) :
    planar_transform f x cy cld
      = (planar_transform f (reshapeT x [b1 * b2]) cy cld).map
          (fun res =>
            ⟨Option.map (fun t => reshapeT t [b1, b2]) res.y,
             Option.map (fun s => reshapeS s [b1, b2]) res.log_det⟩) := by
  by_cases hx : x.units = f.n_units
  · have h1 : input_spec_ok f.n_units x := ⟨hx, by rw [h]; simp⟩
    have h2 : input_spec_ok f.n_units (reshapeT x [b1 * b2]) :=
      ⟨hx, by simp [reshapeT]⟩
    rw [planar_transform_ok f x cy cld h1,
      planar_transform_ok f _ cy cld h2]
    cases cy <;> cases cld <;>
      simp [reshapeT, reshapeS, Except.map, h]
  · have h1 : ¬input_spec_ok f.n_units x := fun hc => hx hc.1
    have h2 : ¬input_spec_ok f.n_units (reshapeT x [b1 * b2]) :=
      fun hc => hx hc.1
    unfold planar_transform
    rw [if_neg h1, if_neg h2]
    rfl

theorem planar_batch_shape_invariance_witness :
    planar_transform exFlow exX22 true true
      = (planar_transform exFlow (reshapeT exX22 [1 * 1]) true true).map
          (fun res =>
            ⟨Option.map (fun t => reshapeT t [1, 1]) res.y,
             Option.map (fun s => reshapeS s [1, 1]) res.log_det⟩) :=
  planar_batch_shape_invariance exFlow exX22 1 1 true true rfl

/-- Claim C6: `_build` on the first input fixes `n_units` to that input's
trailing dimension, and every subsequent forward call with an input whose
trailing dimension differs from `n_units` fails validation with
`ShapeError`. -/
theorem planar_shape_error (x0 : Tensor) (w u : List ℝ) (b : ℝ)
    (f : PlanarFlowBuilt) (x : Tensor) (cy cld : Bool)
    (hb : planar_build x0 w u b = .ok f) (hx : x.units ≠ f.n_units) :
    f.n_units = x0.units ∧
      planar_transform f x cy cld = .error .ShapeError := by
  have hf : f = ⟨x0.units, w, b, u⟩ := by
    unfold planar_build at hb
    by_cases hr : 1 ≤ x0.bshape.length
    · rw [if_pos hr] at hb
      exact (Except.ok.inj hb).symm
    · rw [if_neg hr] at hb
      simp at hb
  refine ⟨by rw [hf], ?_⟩
  unfold planar_transform
  rw [if_neg (fun hc => hx hc.1)]

theorem planar_shape_error_witness :
    (planar_build exX [1, 0] [0, 1] 0 = .ok exFlow) ∧
    (exBad.units ≠ exFlow.n_units) ∧
    exFlow.n_units = exX.units ∧
      planar_transform exFlow exBad true true = .error .ShapeError :=
  ⟨rfl, by decide,
    planar_shape_error exX [1, 0] [0, 1] 0 exFlow exBad true true rfl
      (by decide)⟩

/-- Claim C7: `planar_normalizing_flows` validates that `n_layers` is a
positive integer, raising `InvalidArgumentError` otherwise (in particular
for `n_layers = 0`); with `n_layers = 1` it returns a single planar flow
in the caller's scope, and with `n_layers > 1` it returns a
`SequentialFlow` wrapping exactly `n_layers` planar flows, each carrying
the same keyword-argument configuration and pairwise-distinct scopes
(hence distinct parameter storage). -/
theorem planar_nf_factory (Init Reg : Type) (kwargs : FlowKwargs Init Reg)
    (n : ℤ) :
    (n ≤ 0 →
      planar_normalizing_flows n kwargs = .error .InvalidArgumentError) ∧
    (planar_normalizing_flows 1 kwargs = .ok (.planar kwargs none)) ∧
    (2 ≤ n → ∃ fls : List (FlowC Init Reg),
      planar_normalizing_flows n kwargs = .ok (.sequential fls) ∧
      (fls.length : ℤ) = n ∧
      (∀ fl ∈ fls, fl.kwargsOf = some kwargs) ∧
      (fls.map FlowC.scopeId).Nodup) := by
  refine ⟨?_, ?_, ?_⟩
  · intro hn
    have : ¬(0 < n) := by omega
    simp [planar_normalizing_flows, validate_positive_int_arg, this]
  · simp [planar_normalizing_flows, validate_positive_int_arg]
  · intro hn
    have h0 : 0 < n := by omega
    have h1 : n.toNat ≠ 1 := by omega
    refine ⟨(List.range n.toNat).map (fun i => .planar kwargs (some i)),
      ?_, ?_, ?_, ?_⟩
    · simp [planar_normalizing_flows, validate_positive_int_arg, h0, h1]
    · simp; omega
    · intro fl hfl
      simp only [List.mem_map] at hfl
      obtain ⟨i, _, rfl⟩ := hfl
      rfl
    · rw [List.map_map]
      have : (FlowC.scopeId ∘ fun i =>
          (FlowC.planar kwargs (some i) : FlowC Init Reg))
          = fun i => some i := rfl
      rw [this]
      exact (List.nodup_range _).map (fun a b => by simp)

theorem planar_nf_factory_witness :
    (planar_normalizing_flows 0 kU = .error .InvalidArgumentError) ∧
    (planar_normalizing_flows 1 kU = .ok (.planar kU none)) ∧
    (∃ fls : List (FlowC Unit Unit),
      planar_normalizing_flows 3 kU = .ok (.sequential fls) ∧
      (fls.length : ℤ) = 3 ∧
      (∀ fl ∈ fls, fl.kwargsOf = some kU) ∧
      (fls.map FlowC.scopeId).Nodup) :=
  ⟨(planar_nf_factory Unit Unit kU 0).1 (by decide),
   (planar_nf_factory Unit Unit kU 1).2.1,
   (planar_nf_factory Unit Unit kU 3).2.2 (by decide)⟩

/-- Claim C8: a `PlanarFlow` supports no analytic inversion: its
capability flag `explicitly_invertible` reports `false`, and calling
`inverse` on it fails with `UnsupportedOperationError`. -/
theorem planar_not_explicitly_invertible :
    explicitly_invertible = false ∧
    ∀ (f : PlanarFlowBuilt) (y : Tensor) (cx cld : Bool),
      flow_inverse f y cx cld = .error .UnsupportedOperationError :=
  ⟨rfl, fun _ _ _ _ => rfl⟩

/-- Claim C9: a forward call with both `compute_y = false` and
`compute_log_det = false` (neither output requested) fails with
`InvalidArgumentError`. -/
theorem planar_requires_output (f : PlanarFlowBuilt) (x : Tensor) :
    flow_forward f x false false = .error .InvalidArgumentError := by
  simp [flow_forward]

/-- Claim C10: the compute flags do not interfere with each other's output
values: the `y` produced with `compute_y = true` is the same whether or
not `compute_log_det` is requested, the `log_det` produced with
`compute_log_det = true` is the same whether or not `compute_y` is
requested, and an output whose flag is `false` is `None`. -/
theorem planar_flags_no_interference (f : PlanarFlowBuilt) (x : Tensor)
    (cy cy' cld cld' : Bool) :
    (planar_transform f x true cld).map ForwardResult.y
      = (planar_transform f x true cld').map ForwardResult.y ∧
    (planar_transform f x cy true).map ForwardResult.log_det
      = (planar_transform f x cy' true).map ForwardResult.log_det ∧
    (∀ res, planar_transform f x cy false = .ok res →
      res.log_det = none) ∧
    (∀ res, planar_transform f x false cld = .ok res → res.y = none) := by
  by_cases hx : input_spec_ok f.n_units x
  · rw [planar_transform_ok f x true cld hx,
      planar_transform_ok f x true cld' hx,
      planar_transform_ok f x cy true hx,
      planar_transform_ok f x cy' true hx,
      planar_transform_ok f x cy false hx,
      planar_transform_ok f x false cld hx]
    refine ⟨by simp [Except.map], by simp [Except.map], ?_, ?_⟩
    · intro res hres
      cases hres
      simp
    · intro res hres
      cases hres
      simp
  · simp only [planar_transform, if_neg hx]
    exact ⟨trivial, trivial, fun res hres => by simp at hres,
      fun res hres => by simp at hres⟩
